import Mathlib

/-!
Shallow embedding of the Super Simple Stock Market (src/sssm.py).

Conventions of the embedding:
* Python floats are idealized as rationals (`ℚ`); the single genuinely
  irrational operation, the `prod(prices) ** (1/len(prices))` power in the
  all-share index, is idealized as real exponentiation (`Real.rpow`).
* Timestamps are rationals measured in minutes; `datetime.datetime.now()`
  is passed explicitly as a `now` argument to the operations that read the
  clock, and `datetime.timedelta(minutes=15)` is the constant
  `fifteenMinutes`.
* Python exceptions are modelled by an `Except Err` result.  The abstract
  error kinds follow the raise sites of the source: each `raise ValueError`
  site gets the abstract kind of the condition it reports.  `Err.typeError`
  stands for Python `TypeError` (raised by the interpreter itself, e.g. when
  `None` is compared with a number), and `Err.keyError` for Python
  `KeyError` (raised by `dict` subscripting on a missing key); both are
  distinct from any deliberately raised `ValueError`.
* `dict` state (`self.stocks`, keyed by `stock.symbol`) is modelled as a
  list of stocks looked up through their `symbol` field, with the Python
  `d[k] = v` semantics: replace in place when the key is present, append
  otherwise, preserving insertion order.
-/

/-- Abstract error kinds of the source's failure sites. -/
inductive Err where
  | invalidInput
  | invalidOperation
  | notFound
  | noData
  | noInstruments
  | noPrices
  | typeError
  | keyError
deriving DecidableEq, Repr

/-- `Stock`: symbol, type ("Common" or "Preferred" in the source's free-form
string), last dividend, optional par value, and the externally updated
optional price (`self.price = None` at construction). -/
structure Stock where
  symbol : String
  type : String
  last_dividend : ℚ
  par_value : Option ℚ
  price : Option ℚ
deriving DecidableEq, Repr

/-- `Stock.__init__`.  In the source `par_value` is an optional parameter
defaulting to `None`; a call that omits it passes `none` here.  `self.price`
starts unset. -/
def Stock.init (symbol : String) (stock_type : String) (last_dividend : ℚ)
    (par_value : Option ℚ) : Stock :=
  { symbol := symbol, type := stock_type, last_dividend := last_dividend,
    par_value := par_value, price := none }

/-- `Stock.calculate_dividend_yield`.  The source compares
`self.par_value > 0` without a presence check; when `par_value` is `None`
that comparison itself raises `TypeError` in Python 3, which the embedding
records as `Err.typeError` (not one of the deliberately raised
`ValueError`s). -/
def Stock.calculate_dividend_yield (s : Stock) (price : ℚ) : Except Err ℚ :=
  if s.type = "Common" then
    if 0 < price then Except.ok (s.last_dividend / price)
    else Except.error Err.invalidInput
  else
    match s.par_value with
    | none => Except.error Err.typeError
    | some pv =>
        if 0 < pv then Except.ok (s.last_dividend / pv)
        else Except.error Err.invalidInput

/-- `Stock.calculate_pe_ratio`: defined only for common stock with a
positive last dividend; every other case raises. -/
def Stock.calculate_pe_ratio (s : Stock) (price : ℚ) : Except Err ℚ :=
  if s.type = "Common" ∧ 0 < s.last_dividend then
    Except.ok (price / s.last_dividend)
  else Except.error Err.invalidOperation

/-- `Trade`: all fields immutable after construction. -/
structure Trade where
  timestamp : ℚ
  symbol : String
  quantity : ℤ
  buy_sell : String
  price : ℚ
deriving DecidableEq, Repr

/-- `StockMarket`: the registry's two collections. -/
structure StockMarket where
  stocks : List Stock
  trades : List Trade
deriving DecidableEq, Repr

/-- `StockMarket.__init__`: both collections start empty. -/
def StockMarket.init : StockMarket :=
  { stocks := [], trades := [] }

/-- `StockMarket.add_stock`: `self.stocks[stock.symbol] = stock`.  Python
`dict` update: overwrite in place when the key is already present, append
otherwise.  Total — there is no duplicate-detection error path. -/
def StockMarket.add_stock (m : StockMarket) (s : Stock) : StockMarket :=
  if m.stocks.any (fun x => decide (x.symbol = s.symbol)) then
    { m with stocks := m.stocks.map (fun x => if x.symbol = s.symbol then s else x) }
  else
    { m with stocks := m.stocks ++ [s] }

/-- `datetime.timedelta(minutes=15)` in the timestamp unit (minutes). -/
def fifteenMinutes : ℚ := 15

/-- `StockMarket.record_trade`: append the trade, then keep exactly the
trades with `t.timestamp >= now - 15 minutes` where `now` is read from the
clock at call time. -/
def StockMarket.record_trade (m : StockMarket) (t : Trade) (now : ℚ) : StockMarket :=
  let appended := m.trades ++ [t]
  let cutoff := now - fifteenMinutes
  { m with trades := appended.filter (fun tr => decide (cutoff ≤ tr.timestamp)) }

/-- The accumulation loop of `calculate_volume_weighted_stock_price`:
starting from `total_quantity = 0` and `total_price_quantity = 0`, add
`trade.quantity` and `trade.price * trade.quantity` for every trade whose
symbol matches. -/
def vwspTotals (trades : List Trade) (symbol : String) : ℤ × ℚ :=
  trades.foldl
    (fun acc tr =>
      if tr.symbol = symbol then
        (acc.1 + tr.quantity, acc.2 + tr.price * (tr.quantity : ℚ))
      else acc)
    (0, 0)

/-- `StockMarket.calculate_volume_weighted_stock_price`: `ValueError`
("not found") when the symbol is not a key of `self.stocks`; otherwise the
quotient of the accumulated totals when the total quantity is positive, and
a bare `ValueError` (abstract kind `noData`) otherwise. -/
def StockMarket.calculate_volume_weighted_stock_price (m : StockMarket)
    (symbol : String) : Except Err ℚ :=
  if (m.stocks.find? (fun s => decide (s.symbol = symbol))) = none then
    Except.error Err.notFound
  else
    let totals := vwspTotals m.trades symbol
    if 0 < totals.1 then Except.ok (totals.2 / (totals.1 : ℚ))
    else Except.error Err.noData

/-- `StockMarket.calculate_gbce_all_share_index`: `ValueError` on an empty
registry; collect the prices of the stocks whose price is set; `ValueError`
when none is set; otherwise the `len(prices)`-th root of their product,
idealized as real exponentiation. -/
noncomputable def StockMarket.calculate_gbce_all_share_index (m : StockMarket) :
    Except Err ℝ :=
  if m.stocks = [] then Except.error Err.noInstruments
  else
    let prices := m.stocks.filterMap (fun s => s.price)
    if prices = [] then Except.error Err.noPrices
    else Except.ok (((prices.prod : ℚ) : ℝ) ^ ((1 : ℝ) / (prices.length : ℝ)))

/-! ## Sample data, mirroring the source's example usage and tests -/

/-- The TEA stock of the source's example block: common, zero dividend. -/
def teaStock : Stock := Stock.init ("TEA") ("Common") 0 (some 100)

/-- The POP stock of the source's example block: common, dividend 8. -/
def popStock : Stock := Stock.init ("POP") ("Common") 8 (some 100)

/-- The GIN stock of the source's example block: preferred, dividend 8,
par value 100. -/
def ginStock : Stock := Stock.init ("GIN") ("Preferred") 8 (some 100)

/-- A preferred stock constructed as `Stock("BAD", "Preferred", 8)` — the
source's optional `par_value` parameter defaults to `None`. -/
def badPreferred : Stock := Stock.init ("BAD") ("Preferred") 8 none

/-! ## C3 / C4 / C5: the per-instrument ratio formulas -/

/-- C3 (code evaluated at the failing input): a Preferred instrument with
absent `par_value` is constructible, and `calculate_dividend_yield` on it
hits the interpreter-raised `TypeError` from `self.par_value > 0`, not the
`InvalidInput` (`ValueError`) failure the claim and the method's own
docstring describe. -/
theorem preferred_missing_par_value_crashes :
    badPreferred.type = "Preferred" ∧ badPreferred.par_value = none ∧
    badPreferred.calculate_dividend_yield 100 = Except.error Err.typeError ∧
    Err.typeError ≠ Err.invalidInput := by
  refine ⟨rfl, rfl, rfl, ?_⟩
  decide

/-- C4: for a Common instrument, `calculate_dividend_yield price` returns
`last_dividend / price` when `0 < price` and fails with `InvalidInput`
when `price ≤ 0`. -/
theorem common_dividend_yield_spec (s : Stock) (price : ℚ)
    (hc : s.type = "Common") :
    (0 < price →
        s.calculate_dividend_yield price = Except.ok (s.last_dividend / price)) ∧
    (price ≤ 0 →
        s.calculate_dividend_yield price = Except.error Err.invalidInput) := by
  constructor
  · intro hp
    simp [Stock.calculate_dividend_yield, hc, hp]
  · intro hp
    simp [Stock.calculate_dividend_yield, hc, not_lt.mpr hp]

/-- C4 witness: the TEA instrument at price 100 and at price 0. -/
theorem common_dividend_yield_spec_witness :
    teaStock.type = "Common" ∧ (0 : ℚ) < 100 ∧ (0 : ℚ) ≤ 0 ∧
    teaStock.calculate_dividend_yield 100 = Except.ok (teaStock.last_dividend / 100) ∧
    teaStock.calculate_dividend_yield 0 = Except.error Err.invalidInput :=
  ⟨rfl, by norm_num, le_refl 0,
    (common_dividend_yield_spec teaStock 100 rfl).1 (by norm_num),
    (common_dividend_yield_spec teaStock 0 rfl).2 (le_refl 0)⟩

/-- C5: the P/E ratio succeeds exactly when the instrument is Common with a
positive last dividend, in which case it is `price / last_dividend`; in every
other case it fails with `InvalidOperation`. -/
theorem pe_ratio_spec (s : Stock) (price : ℚ) :
    ((∃ r, Stock.calculate_pe_ratio s price = Except.ok r) ↔
        (s.type = "Common" ∧ 0 < s.last_dividend)) ∧
    (s.type = "Common" → 0 < s.last_dividend →
        Stock.calculate_pe_ratio s price = Except.ok (price / s.last_dividend)) ∧
    (¬(s.type = "Common" ∧ 0 < s.last_dividend) →
        Stock.calculate_pe_ratio s price = Except.error Err.invalidOperation) := by
  refine ⟨?_, ?_, ?_⟩
  · constructor
    · rintro ⟨r, hr⟩
      by_contra hnot
      simp [Stock.calculate_pe_ratio, hnot] at hr
    · intro h
      exact ⟨price / s.last_dividend, by simp [Stock.calculate_pe_ratio, h]⟩
  · intro h1 h2
    simp [Stock.calculate_pe_ratio, h1, h2]
  · intro hnot
    simp [Stock.calculate_pe_ratio, hnot]

/-- C5 witness: POP (Common, dividend 8) succeeds at price 100 with ratio
100/8; GIN (Preferred) fails with `InvalidOperation`. -/
theorem pe_ratio_spec_witness :
    popStock.type = "Common" ∧ (0 : ℚ) < popStock.last_dividend ∧
    Stock.calculate_pe_ratio popStock 100 = Except.ok (100 / popStock.last_dividend) ∧
    ¬(ginStock.type = "Common" ∧ 0 < ginStock.last_dividend) ∧
    Stock.calculate_pe_ratio ginStock 100 = Except.error Err.invalidOperation :=
  ⟨rfl, by norm_num [popStock, Stock.init],
    (pe_ratio_spec popStock 100).2.1 rfl (by norm_num [popStock, Stock.init]),
    by decide,
    (pe_ratio_spec ginStock 100).2.2 (by decide)⟩

/-! ## C1: volume-weighted stock price -/

/-- Specification-side view of the matching trades: the sublist of
`recentTrades` whose symbol matches. -/
def matchingTrades (trades : List Trade) (symbol : String) : List Trade :=
  trades.filter (fun t => decide (t.symbol = symbol))

/-- Specification-side total quantity `Σ qi` over the matching trades. -/
def matchingQuantity (trades : List Trade) (symbol : String) : ℤ :=
  ((matchingTrades trades symbol).map (fun t => t.quantity)).sum

/-- Specification-side total `Σ (qi * pi)` over the matching trades. -/
def matchingPriceQuantity (trades : List Trade) (symbol : String) : ℚ :=
  ((matchingTrades trades symbol).map (fun t => t.price * (t.quantity : ℚ))).sum

/-- The source's accumulation loop computes exactly the two sums over the
matching sublist. -/
theorem vwspTotals_eq_sums (trades : List Trade) (symbol : String) :
    vwspTotals trades symbol =
      (matchingQuantity trades symbol, matchingPriceQuantity trades symbol) := by
  suffices h : ∀ (a : ℤ) (b : ℚ),
      trades.foldl
        (fun acc tr =>
          if tr.symbol = symbol then
            (acc.1 + tr.quantity, acc.2 + tr.price * (tr.quantity : ℚ))
          else acc)
        (a, b) =
      (a + matchingQuantity trades symbol, b + matchingPriceQuantity trades symbol) by
    simpa [vwspTotals] using h 0 0
  induction trades with
  | nil =>
      intro a b
      simp [matchingQuantity, matchingPriceQuantity, matchingTrades]
  | cons t ts ih =>
      intro a b
      by_cases ht : t.symbol = symbol
      · simp only [List.foldl_cons, if_pos ht, ih]
        simp [matchingQuantity, matchingPriceQuantity, matchingTrades, ht]
        constructor <;> ring
      · simp only [List.foldl_cons, if_neg ht, ih]
        simp [matchingQuantity, matchingPriceQuantity, matchingTrades, ht]

/-- C1: `calculate_volume_weighted_stock_price` fails with `NotFound` when
the symbol is not a key of the instruments map; on a registered symbol it
returns `Σ (qi * pi) / Σ qi` over the matching trades when `Σ qi > 0`, and
fails with `NoData` when the matching total quantity is zero. -/
theorem vwsp_spec (m : StockMarket) (symbol : String) :
    (m.stocks.find? (fun s => decide (s.symbol = symbol)) = none →
        m.calculate_volume_weighted_stock_price symbol = Except.error Err.notFound) ∧
    (m.stocks.find? (fun s => decide (s.symbol = symbol)) ≠ none →
      (0 < matchingQuantity m.trades symbol →
          m.calculate_volume_weighted_stock_price symbol =
            Except.ok (matchingPriceQuantity m.trades symbol /
              (matchingQuantity m.trades symbol : ℚ))) ∧
      (matchingQuantity m.trades symbol = 0 →
          m.calculate_volume_weighted_stock_price symbol =
            Except.error Err.noData)) := by
  constructor
  · intro h
    simp [StockMarket.calculate_volume_weighted_stock_price, h]
  · intro h
    constructor
    · intro hq
      simp [StockMarket.calculate_volume_weighted_stock_price, h,
        vwspTotals_eq_sums, hq]
    · intro hq
      simp [StockMarket.calculate_volume_weighted_stock_price, h,
        vwspTotals_eq_sums, hq]

/-- A market holding TEA and POP, with two TEA trades in the window,
mirroring the test `test_volume_weighted_stock_price_past_trades`. -/
def vwspMarket : StockMarket :=
  { stocks := [teaStock, popStock],
    trades :=
      [{ timestamp := 90, symbol := ("TEA"), quantity := 100,
         buy_sell := ("Buy"), price := 172 },
       { timestamp := 95, symbol := ("TEA"), quantity := 50,
         buy_sell := ("Sell"), price := 168 }] }

/-- C1 witness: on `vwspMarket`, the TEA query returns
`(100*172 + 50*168) / 150`, and the POP query (registered, no matching
trades) fails with `NoData`. -/
theorem vwsp_spec_witness :
    vwspMarket.stocks.find? (fun s => decide (s.symbol = "TEA")) ≠ none ∧
    (0 : ℤ) < matchingQuantity vwspMarket.trades ("TEA") ∧
    vwspMarket.calculate_volume_weighted_stock_price ("TEA") =
      Except.ok (matchingPriceQuantity vwspMarket.trades ("TEA") /
        (matchingQuantity vwspMarket.trades ("TEA") : ℚ)) ∧
    vwspMarket.stocks.find? (fun s => decide (s.symbol = "POP")) ≠ none ∧
    matchingQuantity vwspMarket.trades ("POP") = 0 ∧
    vwspMarket.calculate_volume_weighted_stock_price ("POP") =
      Except.error Err.noData :=
  ⟨by decide, by decide,
    ((vwsp_spec vwspMarket ("TEA")).2 (by decide)).1 (by decide),
    by decide, by decide,
    ((vwsp_spec vwspMarket ("POP")).2 (by decide)).2 (by decide)⟩

/-! ## C2: trade retention after `record_trade` -/

/-- C2: after `record_trade t now`, every previously recorded trade whose
timestamp is older than `now - 15 minutes` is absent, and `t` itself is a
member exactly when its own timestamp is not older than `now - 15 minutes`. -/
theorem record_trade_retention (m : StockMarket) (t : Trade) (now : ℚ) :
    (∀ t0, t0 ∈ m.trades → t0.timestamp < now - fifteenMinutes →
        t0 ∉ (m.record_trade t now).trades) ∧
    (t ∈ (m.record_trade t now).trades ↔ now - fifteenMinutes ≤ t.timestamp) := by
  constructor
  · intro t0 _ hold hmem
    simp only [StockMarket.record_trade, List.mem_filter, decide_eq_true_eq] at hmem
    exact absurd hmem.2 (not_le.mpr hold)
  · simp [StockMarket.record_trade, List.mem_filter]

/-- An old TEA trade, 20 minutes before the witness call time 100. -/
def staleTrade : Trade :=
  { timestamp := 80, symbol := ("TEA"), quantity := 50,
    buy_sell := ("Sell"), price := 165 }

/-- A fresh TEA trade at the witness call time 100. -/
def freshTrade : Trade :=
  { timestamp := 100, symbol := ("TEA"), quantity := 100,
    buy_sell := ("Buy"), price := 170 }

/-- A market whose trade log holds only `staleTrade`. -/
def staleMarket : StockMarket :=
  { stocks := [teaStock], trades := [staleTrade] }

/-- C2 witness: recording `freshTrade` at time 100 drops `staleTrade`
(timestamp 80 < 85) and keeps `freshTrade` (timestamp 100 ≥ 85). -/
theorem record_trade_retention_witness :
    staleTrade ∈ staleMarket.trades ∧
    staleTrade.timestamp < 100 - fifteenMinutes ∧
    staleTrade ∉ (staleMarket.record_trade freshTrade 100).trades ∧
    freshTrade ∈ (staleMarket.record_trade freshTrade 100).trades :=
  ⟨by decide, by norm_num [staleTrade, fifteenMinutes],
    (record_trade_retention staleMarket freshTrade 100).1 staleTrade
      (by decide) (by norm_num [staleTrade, fifteenMinutes]),
    (record_trade_retention staleMarket freshTrade 100).2.mpr
      (by norm_num [freshTrade, fifteenMinutes])⟩

/-! ## C6: GBCE all-share index -/

/-- Specification-side view of the collected prices: the `lastPrice` values
of exactly those instruments whose price is set, in registry order. -/
def pricedPrices (m : StockMarket) : List ℚ :=
  (m.stocks.filter (fun s => s.price.isSome)).map (fun s => s.price.getD 0)

/-- The source's comprehension `[stock.price for stock in ... if price is not
None]` collects exactly the prices of the priced instruments. -/
theorem filterMap_price_eq_pricedPrices (m : StockMarket) :
    m.stocks.filterMap (fun s => s.price) = pricedPrices m := by
  unfold pricedPrices
  induction m.stocks with
  | nil => simp
  | cons s ss ih =>
      cases hp : s.price with
      | none => simp [List.filterMap_cons, hp, ih]
      | some p => simp [List.filterMap_cons, hp, ih]

/-- C6: the index fails with `NoInstruments` on an empty registry; with
instruments present but none priced it fails with `NoPrices`; with `n ≥ 1`
priced instruments it returns the `n`-th root of the product of exactly
their prices — unpriced instruments contribute neither to the product nor
to the count. -/
theorem all_share_index_spec (m : StockMarket) :
    (m.stocks = [] →
        m.calculate_gbce_all_share_index = Except.error Err.noInstruments) ∧
    (m.stocks ≠ [] → pricedPrices m = [] →
        m.calculate_gbce_all_share_index = Except.error Err.noPrices) ∧
    (pricedPrices m ≠ [] →
        m.calculate_gbce_all_share_index =
          Except.ok ((((pricedPrices m).prod : ℚ) : ℝ) ^
            ((1 : ℝ) / ((pricedPrices m).length : ℝ)))) := by
  refine ⟨?_, ?_, ?_⟩
  · intro h
    simp [StockMarket.calculate_gbce_all_share_index, h]
  · intro hne hp
    simp [StockMarket.calculate_gbce_all_share_index, hne,
      filterMap_price_eq_pricedPrices, hp]
  · intro hp
    have hne : m.stocks ≠ [] := by
      intro h
      apply hp
      simp [pricedPrices, h]
    simp [StockMarket.calculate_gbce_all_share_index, hne,
      filterMap_price_eq_pricedPrices, hp]

/-- A registry holding a priced POP (price 100) and an unpriced TEA. -/
def indexMarket : StockMarket :=
  { stocks := [{ popStock with price := some 100 }, teaStock], trades := [] }

/-- C6 witness: on `indexMarket` the collected price list is the singleton
`[100]` (the unpriced TEA is excluded), and the index is the 1-st root of
100. -/
theorem all_share_index_spec_witness :
    pricedPrices indexMarket = [100] ∧
    indexMarket.calculate_gbce_all_share_index =
      Except.ok ((((pricedPrices indexMarket).prod : ℚ) : ℝ) ^
        ((1 : ℝ) / ((pricedPrices indexMarket).length : ℝ))) :=
  ⟨by decide, (all_share_index_spec indexMarket).2.2 (by decide)⟩

/-! ## C8: last-write-wins on duplicate symbols -/

/-- `add_stock` never touches the trade log. -/
theorem add_stock_trades (m : StockMarket) (s : Stock) :
    (m.add_stock s).trades = m.trades := by
  unfold StockMarket.add_stock
  split <;> rfl

/-- In the overwrite branch of the dict update, looking up the written key
finds the new stock. -/
theorem find?_map_update_self (l : List Stock) (s : Stock)
    (h : l.any (fun x => decide (x.symbol = s.symbol)) = true) :
    (l.map (fun x => if x.symbol = s.symbol then s else x)).find?
      (fun x => decide (x.symbol = s.symbol)) = some s := by
  induction l with
  | nil => simp at h
  | cons x xs ih =>
      by_cases hx : x.symbol = s.symbol
      · simp [hx]
      · have h' : xs.any (fun x => decide (x.symbol = s.symbol)) = true := by
          simpa [hx] using h
        simpa [hx] using ih h'

/-- In the append branch of the dict update, looking up the written key
finds the appended stock. -/
theorem find?_append_single_self (l : List Stock) (s : Stock)
    (h : l.any (fun x => decide (x.symbol = s.symbol)) = false) :
    (l ++ [s]).find? (fun x => decide (x.symbol = s.symbol)) = some s := by
  have hnone : l.find? (fun x => decide (x.symbol = s.symbol)) = none := by
    rw [List.find?_eq_none]
    intro x hx
    have hx' := List.any_eq_false.mp h x hx
    simpa using hx'
  simp [List.find?_append, hnone]

/-- Looking up the just-written key after `add_stock` returns the stock that
was written. -/
theorem find?_add_stock_self (m : StockMarket) (s : Stock) :
    (m.add_stock s).stocks.find? (fun x => decide (x.symbol = s.symbol)) = some s := by
  unfold StockMarket.add_stock
  by_cases h : m.stocks.any (fun x => decide (x.symbol = s.symbol)) = true
  · simp only [if_pos h]
    exact find?_map_update_self m.stocks s h
  · simp only [if_neg h]
    exact find?_append_single_self m.stocks s (by simpa using h)

/-- The overwrite branch of the dict update leaves every other key's lookup
unchanged. -/
theorem find?_map_update_other (l : List Stock) (s : Stock) (sym : String)
    (hne : sym ≠ s.symbol) :
    (l.map (fun x => if x.symbol = s.symbol then s else x)).find?
        (fun x => decide (x.symbol = sym)) =
      l.find? (fun x => decide (x.symbol = sym)) := by
  induction l with
  | nil => rfl
  | cons x xs ih =>
      by_cases hx : x.symbol = s.symbol
      · rw [List.map_cons, if_pos hx,
          List.find?_cons_of_neg _ (by simp [Ne.symm hne]),
          List.find?_cons_of_neg _ (by simp [hx, Ne.symm hne]), ih]
      · rw [List.map_cons, if_neg hx]
        by_cases hxs : x.symbol = sym
        · rw [List.find?_cons_of_pos _ (by simp [hxs]),
            List.find?_cons_of_pos _ (by simp [hxs])]
        · rw [List.find?_cons_of_neg _ (by simp [hxs]),
            List.find?_cons_of_neg _ (by simp [hxs]), ih]

/-- The append branch of the dict update leaves every other key's lookup
unchanged. -/
theorem find?_append_single_other (l : List Stock) (s : Stock) (sym : String)
    (hne : sym ≠ s.symbol) :
    (l ++ [s]).find? (fun x => decide (x.symbol = sym)) =
      l.find? (fun x => decide (x.symbol = sym)) := by
  rw [List.find?_append]
  have hs : [s].find? (fun x => decide (x.symbol = sym)) = none := by
    simp [Ne.symm hne]
  rw [hs]
  cases l.find? (fun x => decide (x.symbol = sym)) <;> rfl

/-- `add_stock` leaves every other key's lookup unchanged. -/
theorem find?_add_stock_other (m : StockMarket) (s : Stock) (sym : String)
    (hne : sym ≠ s.symbol) :
    (m.add_stock s).stocks.find? (fun x => decide (x.symbol = sym)) =
      m.stocks.find? (fun x => decide (x.symbol = sym)) := by
  unfold StockMarket.add_stock
  split
  · exact find?_map_update_other m.stocks s sym hne
  · exact find?_append_single_other m.stocks s sym hne

/-- C8: adding `a` then `b` under the same symbol leaves `b` (the last
write) under that key, no failure is possible (`add_stock` is total), and
every other key's lookup and the trade log are unchanged. -/
theorem add_stock_last_write_wins (m : StockMarket) (a b : Stock)
    (h : a.symbol = b.symbol) :
    ((m.add_stock a).add_stock b).stocks.find?
        (fun x => decide (x.symbol = b.symbol)) = some b ∧
    (∀ sym, sym ≠ b.symbol →
        ((m.add_stock a).add_stock b).stocks.find?
            (fun x => decide (x.symbol = sym)) =
          m.stocks.find? (fun x => decide (x.symbol = sym))) ∧
    ((m.add_stock a).add_stock b).trades = m.trades := by
  refine ⟨find?_add_stock_self (m.add_stock a) b, ?_, ?_⟩
  · intro sym hsym
    rw [find?_add_stock_other (m.add_stock a) b sym hsym,
      find?_add_stock_other m a sym (fun he => hsym (he.trans h))]
  · rw [add_stock_trades, add_stock_trades]

/-- A second POP stock, same symbol as `popStock` but different dividend. -/
def popStock2 : Stock := Stock.init ("POP") ("Common") 10 (some 100)

/-- A one-stock registry used by the C8 witness. -/
def c8Market : StockMarket := { stocks := [teaStock], trades := [] }

/-- C8 witness: writing `popStock` then `popStock2` leaves `popStock2` under
"POP", leaves the "TEA" entry and the trade log unchanged. -/
theorem add_stock_last_write_wins_witness :
    popStock.symbol = popStock2.symbol ∧
    ((c8Market.add_stock popStock).add_stock popStock2).stocks.find?
        (fun x => decide (x.symbol = popStock2.symbol)) = some popStock2 ∧
    ("TEA" : String) ≠ popStock2.symbol ∧
    ((c8Market.add_stock popStock).add_stock popStock2).stocks.find?
        (fun x => decide (x.symbol = ("TEA"))) =
      c8Market.stocks.find? (fun x => decide (x.symbol = ("TEA"))) ∧
    ((c8Market.add_stock popStock).add_stock popStock2).trades = c8Market.trades :=
  ⟨rfl,
    (add_stock_last_write_wins c8Market popStock popStock2 rfl).1,
    by decide,
    (add_stock_last_write_wins c8Market popStock popStock2 rfl).2.1 ("TEA") (by decide),
    (add_stock_last_write_wins c8Market popStock popStock2 rfl).2.2⟩

/-! ## C9: failed queries leave the registry unchanged

The source's query methods (`calculate_volume_weighted_stock_price`,
`calculate_gbce_all_share_index`, and the two `Stock` ratio methods reached
through `market.stocks[symbol]`) assign no attribute of `self`: their bodies
use only local variables.  The operation-level semantics below is the
state-passing translation of the source methods: the two mutators rebuild
the state exactly as the source does, and each query's state component is
the translation of a body with no attribute assignment. -/

/-- Result values of the API surface: `none` for the mutators (Python
returns `None`), a rational for the three rational-valued queries, a real
for the index. -/
inductive Val where
  | unit
  | num (q : ℚ)
  | real (r : ℝ)

/-- One call of the in-process API surface.  `now` is the clock value read
by `record_trade`.  The two ratio queries go through
`market.stocks[symbol]`, as in the source's example block. -/
inductive Op where
  | addStock (s : Stock)
  | recordTrade (t : Trade) (now : ℚ)
  | volumeWeightedPrice (symbol : String)
  | allShareIndex
  | dividendYield (symbol : String) (price : ℚ)
  | peRatio (symbol : String) (price : ℚ)

/-- The query operations: every `Op` except the two mutators. -/
def Op.isQuery : Op → Bool
  | .addStock _ => false
  | .recordTrade _ _ => false
  | .volumeWeightedPrice _ => true
  | .allShareIndex => true
  | .dividendYield _ _ => true
  | .peRatio _ _ => true

/-- Whether a call raised. -/
def isErr {α : Type} : Except Err α → Bool
  | .error _ => true
  | .ok _ => false

/-- State-passing semantics of one API call, translated method by method
from the source.  `dict` subscripting on an unregistered symbol raises
`KeyError`. -/
noncomputable def runOp (m : StockMarket) (op : Op) : Except Err Val × StockMarket :=
  match op with
  | .addStock s => (Except.ok Val.unit, m.add_stock s)
  | .recordTrade t now => (Except.ok Val.unit, m.record_trade t now)
  | .volumeWeightedPrice symbol =>
      ((m.calculate_volume_weighted_stock_price symbol).map Val.num, m)
  | .allShareIndex =>
      ((m.calculate_gbce_all_share_index).map Val.real, m)
  | .dividendYield symbol price =>
      (match m.stocks.find? (fun s => decide (s.symbol = symbol)) with
        | none => Except.error Err.keyError
        | some s => (s.calculate_dividend_yield price).map Val.num, m)
  | .peRatio symbol price =>
      (match m.stocks.find? (fun s => decide (s.symbol = symbol)) with
        | none => Except.error Err.keyError
        | some s => (Stock.calculate_pe_ratio s price).map Val.num, m)

/-- A query call leaves the registry state untouched. -/
theorem runOp_query_state (m : StockMarket) (op : Op) (hq : op.isQuery = true) :
    (runOp m op).2 = m := by
  cases op with
  | addStock s => simp [Op.isQuery] at hq
  | recordTrade t now => simp [Op.isQuery] at hq
  | volumeWeightedPrice symbol => rfl
  | allShareIndex => rfl
  | dividendYield symbol price => rfl
  | peRatio symbol price => rfl

/-- C9: whenever a query operation fails, the whole registry state is
unchanged and every subsequent call behaves exactly as if the failed call
had never happened. -/
theorem failed_query_preserves_state (m : StockMarket) (op : Op)
    (hq : op.isQuery = true) (_he : isErr (runOp m op).1 = true) :
    (runOp m op).2 = m ∧
    (∀ op2, runOp ((runOp m op).2) op2 = runOp m op2) := by
  have hst := runOp_query_state m op hq
  exact ⟨hst, fun op2 => by rw [hst]⟩

/-- C9 witness: the volume-weighted-price query on the empty registry fails
(with `NotFound`) and leaves the registry equal to its old value, and a
subsequent `addStock` call behaves identically. -/
theorem failed_query_preserves_state_witness :
    (Op.volumeWeightedPrice ("TEA")).isQuery = true ∧
    isErr (runOp StockMarket.init (Op.volumeWeightedPrice ("TEA"))).1 = true ∧
    (runOp StockMarket.init (Op.volumeWeightedPrice ("TEA"))).2 = StockMarket.init ∧
    runOp (runOp StockMarket.init (Op.volumeWeightedPrice ("TEA"))).2
        (Op.addStock teaStock) =
      runOp StockMarket.init (Op.addStock teaStock) :=
  ⟨rfl, rfl,
    (failed_query_preserves_state StockMarket.init
      (Op.volumeWeightedPrice ("TEA")) rfl rfl).1,
    (failed_query_preserves_state StockMarket.init
      (Op.volumeWeightedPrice ("TEA")) rfl rfl).2 (Op.addStock teaStock)⟩

/-! ## C7: the Preferred / par-value invariant -/

/-- The claimed invariant: a Preferred instrument carries a present
par value. -/
def preferredParPresent (s : Stock) : Prop :=
  s.type = "Preferred" → s.par_value ≠ none

/-- C7 counterexample: the constructor does not enforce the invariant —
`Stock("BAD", "Preferred", 8)` is constructible (the source defaults
`par_value` to `None`) and violates it. -/
theorem preferred_without_par_constructible :
    badPreferred.type = "Preferred" ∧ badPreferred.par_value = none :=
  ⟨rfl, rfl⟩

/-- An element of the registry after `add_stock` is either the stock just
written or one that was already registered. -/
theorem mem_add_stock (m : StockMarket) (s : Stock) (x : Stock)
    (hx : x ∈ (m.add_stock s).stocks) : x = s ∨ x ∈ m.stocks := by
  unfold StockMarket.add_stock at hx
  split at hx
  · simp only [List.mem_map] at hx
    obtain ⟨y, hy, hxy⟩ := hx
    by_cases hys : y.symbol = s.symbol
    · rw [if_pos hys] at hxy
      exact Or.inl hxy.symm
    · rw [if_neg hys] at hxy
      exact Or.inr (hxy ▸ hy)
  · simp only [List.mem_append, List.mem_singleton] at hx
    rcases hx with h | h
    · exact Or.inr h
    · exact Or.inl h

/-- C7 amended: construction with a supplied par value satisfies the
invariant, and every operation preserves it — `add_stock` keeps it across
the registry when the written stock satisfies it, `record_trade` leaves the
instruments untouched, and queries leave the whole state untouched.  (The
unamended claim is false: construction may omit the par value, see the
counterexample.) -/
theorem preferred_par_invariant_amended (sym ty : String) (d pv : ℚ)
    (m : StockMarket) (s : Stock) (t : Trade) (now : ℚ) (op : Op) :
    preferredParPresent (Stock.init sym ty d (some pv)) ∧
    ((∀ x ∈ m.stocks, preferredParPresent x) → preferredParPresent s →
        ∀ x ∈ (m.add_stock s).stocks, preferredParPresent x) ∧
    (m.record_trade t now).stocks = m.stocks ∧
    (op.isQuery = true → (runOp m op).2 = m) := by
  refine ⟨?_, ?_, rfl, runOp_query_state m op⟩
  · intro _
    simp [Stock.init]
  · intro hall hs x hx
    rcases mem_add_stock m s x hx with rfl | hmem
    · exact hs
    · exact hall x hmem

/-- C7 amended witness: GIN constructed with par value 100 satisfies the
invariant; adding it to the empty registry preserves the invariant
everywhere; recording a trade and running the index query leave the
instruments unchanged. -/
theorem preferred_par_invariant_amended_witness :
    preferredParPresent (Stock.init ("GIN") ("Preferred") 8 (some 100)) ∧
    (∀ x ∈ (StockMarket.init.add_stock ginStock).stocks, preferredParPresent x) ∧
    (StockMarket.init.record_trade freshTrade 100).stocks = StockMarket.init.stocks ∧
    (runOp StockMarket.init Op.allShareIndex).2 = StockMarket.init :=
  have h := preferred_par_invariant_amended ("GIN") ("Preferred") 8 100
    StockMarket.init ginStock freshTrade 100 Op.allShareIndex
  ⟨h.1, h.2.1 (by simp [StockMarket.init])
      (by simp [preferredParPresent, ginStock, Stock.init]),
    h.2.2.1, h.2.2.2 rfl⟩

/-! ## C10: the Buy/Sell side never influences any computed metric -/

/-- Trade records that agree on timestamp, symbol, quantity and price and
may differ only in the Buy/Sell side. -/
def SameExceptSide (t1 t2 : Trade) : Prop :=
  t1.timestamp = t2.timestamp ∧ t1.symbol = t2.symbol ∧
  t1.quantity = t2.quantity ∧ t1.price = t2.price

/-- Registries with identical instruments and pointwise side-equivalent
trade logs. -/
def MarketRel (m1 m2 : StockMarket) : Prop :=
  m1.stocks = m2.stocks ∧ List.Forall₂ SameExceptSide m1.trades m2.trades

/-- Run a sequence of `record_trade` calls, each with its own clock value. -/
def runTrades (m : StockMarket) (calls : List (Trade × ℚ)) : StockMarket :=
  calls.foldl (fun acc c => acc.record_trade c.1 c.2) m

/-- The retention filter keeps or drops side-equivalent trades together:
it reads only the timestamp. -/
theorem forall₂_filter_window (now : ℚ) {l1 l2 : List Trade}
    (h : List.Forall₂ SameExceptSide l1 l2) :
    List.Forall₂ SameExceptSide
      (l1.filter (fun tr => decide (now - fifteenMinutes ≤ tr.timestamp)))
      (l2.filter (fun tr => decide (now - fifteenMinutes ≤ tr.timestamp))) := by
  induction h with
  | nil => simp
  | @cons a b l1 l2 hab htl ih =>
      by_cases hts : now - fifteenMinutes ≤ a.timestamp
      · have hts2 : now - fifteenMinutes ≤ b.timestamp := hab.1 ▸ hts
        simp only [List.filter_cons, decide_eq_true_eq, if_pos hts, if_pos hts2]
        exact List.Forall₂.cons hab ih
      · have hts2 : ¬(now - fifteenMinutes ≤ b.timestamp) := hab.1 ▸ hts
        simp only [List.filter_cons, decide_eq_true_eq, if_neg hts, if_neg hts2]
        exact ih

/-- `record_trade` maps side-equivalent inputs at the same clock value to
side-equivalent registries: the retention decision reads only the
timestamp. -/
theorem record_trade_congr {m1 m2 : StockMarket} (h : MarketRel m1 m2)
    {t1 t2 : Trade} (ht : SameExceptSide t1 t2) {now1 now2 : ℚ}
    (hnow : now1 = now2) :
    MarketRel (m1.record_trade t1 now1) (m2.record_trade t2 now2) := by
  subst hnow
  obtain ⟨hst, htr⟩ := h
  refine ⟨hst, ?_⟩
  exact forall₂_filter_window now1
    (List.rel_append htr (List.Forall₂.cons ht List.Forall₂.nil))

/-- The accumulation loop of the volume-weighted price reads only symbol,
quantity and price, so side-equivalent logs produce the same totals. -/
theorem vwspTotals_congr (symbol : String) {l1 l2 : List Trade}
    (h : List.Forall₂ SameExceptSide l1 l2) :
    vwspTotals l1 symbol = vwspTotals l2 symbol := by
  suffices hgen : ∀ acc : ℤ × ℚ,
      l1.foldl
        (fun acc tr =>
          if tr.symbol = symbol then
            (acc.1 + tr.quantity, acc.2 + tr.price * (tr.quantity : ℚ))
          else acc) acc =
      l2.foldl
        (fun acc tr =>
          if tr.symbol = symbol then
            (acc.1 + tr.quantity, acc.2 + tr.price * (tr.quantity : ℚ))
          else acc) acc by
    exact hgen (0, 0)
  induction h with
  | nil => intro acc; rfl
  | @cons a b l1 l2 hab htl ih =>
      intro acc
      obtain ⟨_, hsym, hq, hp⟩ := hab
      simp only [List.foldl_cons, hsym, hq, hp]
      exact ih _

/-- Side-equivalent registries answer every volume-weighted-price query
identically. -/
theorem vwsp_congr {m1 m2 : StockMarket} (h : MarketRel m1 m2)
    (symbol : String) :
    m1.calculate_volume_weighted_stock_price symbol =
      m2.calculate_volume_weighted_stock_price symbol := by
  obtain ⟨hst, htr⟩ := h
  unfold StockMarket.calculate_volume_weighted_stock_price
  rw [hst, vwspTotals_congr symbol htr]

/-- The all-share index reads only the instruments, which side-equivalent
registries share. -/
theorem gbce_congr {m1 m2 : StockMarket} (hst : m1.stocks = m2.stocks) :
    m1.calculate_gbce_all_share_index = m2.calculate_gbce_all_share_index := by
  unfold StockMarket.calculate_gbce_all_share_index
  rw [hst]

/-- Running pointwise side-equivalent call sequences from side-equivalent
registries keeps the registries side-equivalent. -/
theorem runTrades_congr {calls1 calls2 : List (Trade × ℚ)}
    (hc : List.Forall₂
      (fun c1 c2 => SameExceptSide c1.1 c2.1 ∧ c1.2 = c2.2) calls1 calls2)
    {m1 m2 : StockMarket} (h : MarketRel m1 m2) :
    MarketRel (runTrades m1 calls1) (runTrades m2 calls2) := by
  induction hc generalizing m1 m2 with
  | nil => exact h
  | @cons c d calls1 calls2 hcd htl ih =>
      simp only [runTrades, List.foldl_cons]
      exact ih (record_trade_congr h hcd.1 hcd.2)

/-- C10: two `record_trade` call sequences whose records agree on
timestamp, symbol, quantity and price (differing at most in the Buy/Sell
side) and whose clock values agree lead to registries on which every
volume-weighted-price query and the all-share-index query return the same
result (the same value or the same error). -/
theorem side_noninterference (m : StockMarket)
    (calls1 calls2 : List (Trade × ℚ))
    (hc : List.Forall₂
      (fun c1 c2 => SameExceptSide c1.1 c2.1 ∧ c1.2 = c2.2) calls1 calls2) :
    (∀ symbol,
        (runTrades m calls1).calculate_volume_weighted_stock_price symbol =
          (runTrades m calls2).calculate_volume_weighted_stock_price symbol) ∧
    (runTrades m calls1).calculate_gbce_all_share_index =
      (runTrades m calls2).calculate_gbce_all_share_index := by
  have hrel : MarketRel (runTrades m calls1) (runTrades m calls2) :=
    runTrades_congr hc
      ⟨rfl, List.forall₂_same.mpr (fun x _ => ⟨rfl, rfl, rfl, rfl⟩)⟩
  exact ⟨fun symbol => vwsp_congr hrel symbol, gbce_congr hrel.1⟩

/-- The same trade as `freshTrade` with the opposite side. -/
def sellTrade : Trade := { freshTrade with buy_sell := ("Sell") }

/-- C10 witness: recording the Buy variant versus the Sell variant of the
same trade gives the same TEA volume-weighted price and the same all-share
index outcome. -/
theorem side_noninterference_witness :
    List.Forall₂ (fun c1 c2 => SameExceptSide c1.1 c2.1 ∧ c1.2 = c2.2)
      ([(freshTrade, 100)] : List (Trade × ℚ)) [(sellTrade, 100)] ∧
    (runTrades staleMarket
        [(freshTrade, 100)]).calculate_volume_weighted_stock_price ("TEA") =
      (runTrades staleMarket
        [(sellTrade, 100)]).calculate_volume_weighted_stock_price ("TEA") ∧
    (runTrades staleMarket [(freshTrade, 100)]).calculate_gbce_all_share_index =
      (runTrades staleMarket [(sellTrade, 100)]).calculate_gbce_all_share_index :=
  have hc : List.Forall₂ (fun c1 c2 => SameExceptSide c1.1 c2.1 ∧ c1.2 = c2.2)
      ([(freshTrade, 100)] : List (Trade × ℚ)) [(sellTrade, 100)] :=
    List.Forall₂.cons ⟨⟨rfl, rfl, rfl, rfl⟩, rfl⟩ List.Forall₂.nil
  have h := side_noninterference staleMarket
    [(freshTrade, 100)] [(sellTrade, 100)] hc
  ⟨hc, h.1 ("TEA"), h.2⟩
